import Mathlib

/-!
Verification of the `ConfigReader` class of `utils.py`.

The development shallowly embeds the configuration parser: Python values
that can appear in a parsed configuration become the inductive type
`PyVal`; the two regular expressions of `listparse` are embedded with
their Python `re` semantics (leftmost non-overlapping matches, lazy
`(.+?)` groups, greedy `[\[\s]*` star with backtracking, `.` not matching
a newline); Python's `float()` builtin is embedded as an exact-rational
parser `pyfloat` (IEEE-754 rounding and the overflow of decimals beyond
about 1e308 to infinity are not modelled: every syntactically valid
finite decimal is given its exact rational value, which is faithful on
the short tokens configuration files contain); exceptions that a method
can raise become `Except` errors.  `read_config` takes the list of lines
of the file (the `f.readlines()` result); opening the file itself is not
modelled.
-/

/-- A Python runtime value as it can appear in a parsed configuration:
the parser produces ints, floats, bools, strings, lists of these, and
`None` (for a parameter declared with no value). -/
inductive PyVal where
  | int : Int → PyVal
  | float : ℚ → PyVal
  | bool : Bool → PyVal
  | str : String → PyVal
  | list : List PyVal → PyVal
  | none : PyVal

/-- An uncaught Python exception of the embedded code: `OverflowError`
from `int(float("inf"))` in `numberparse`, or the `sys.exit()` call in
`read_config` (it carries the offending line). -/
inductive PyErr where
  | overflowError : PyErr
  | systemExit : String → PyErr
deriving DecidableEq

/-- Python whitespace for `str.split()` / `str.rstrip()` / `float()`:
space, tab, newline, carriage return, vertical tab, form feed. -/
def pyIsSpace (c : Char) : Bool :=
  c = ' ' || c = '\t' || c = '\n' || c = '\x0d' || c = '\x0b' || c = '\x0c'

/-- Helper for `pySplit`: cut a character list at every whitespace
character, keeping the (possibly empty) pieces. -/
def splitAux (cs : List Char) (cur : List Char) : List (List Char) :=
  match cs with
  | [] => [cur.reverse]
  | c :: rest =>
      if pyIsSpace c then cur.reverse :: splitAux rest []
      else splitAux rest (c :: cur)

/-- Python `s.split()` with no argument: split on runs of whitespace and
drop empty pieces. -/
def pySplit (s : String) : List String :=
  ((splitAux s.toList []).filter (fun w => w ≠ [])).map String.mk

/-- Python `s.rstrip()`: remove trailing whitespace. -/
def pyRstrip (s : String) : String :=
  String.mk ((s.toList.reverse.dropWhile pyIsSpace).reverse)

/-- Python `s.startswith(c)` for a one-character prefix. -/
def startsWithChar (s : String) (c : Char) : Bool :=
  match s.toList with
  | [] => false
  | d :: _ => d = c

/-- Python `s[1:]`: drop the first character. -/
def dropFirstChar (s : String) : String :=
  String.mk (s.toList.drop 1)

/-- Python `s[:-1]`: drop the last character. -/
def dropLastChar (s : String) : String :=
  String.mk s.toList.dropLast

/-- Characters of a Python `" ".join(words)`. -/
def joinSpaceList : List String → List Char
  | [] => []
  | [w] => w.toList
  | w :: rest => w.toList ++ ' ' :: joinSpaceList rest

/-- Python `" ".join(words)`. -/
def joinSpace (ws : List String) : String :=
  String.mk (joinSpaceList ws)

/-! ## Python `float()` -/

/-- The outcome of Python `float(string)`: a finite value (as an exact
rational), an infinity (with its sign), a NaN, or a `ValueError`. -/
inductive FloatParse where
  | finite : ℚ → FloatParse
  | infinite : Bool → FloatParse
  | nan : FloatParse
  | err : FloatParse
deriving DecidableEq

/-- Value of a list of decimal digit characters. -/
def digitsToNat (ds : List Char) : Nat :=
  ds.foldl (fun a c => 10 * a + (c.toNat - 48)) 0

/-- Scan a maximal digit group as Python's number lexing does from 3.6 on:
decimal digits, with a single underscore allowed between two digits.
Returns the digits (underscores removed) and the unconsumed rest. -/
def parseDigitsU : List Char → List Char × List Char
  | c :: '_' :: d :: rest =>
      if c.isDigit && d.isDigit then
        let p := parseDigitsU (d :: rest)
        (c :: p.1, p.2)
      else if c.isDigit then ([c], '_' :: d :: rest)
      else ([], c :: '_' :: d :: rest)
  | c :: rest =>
      if c.isDigit then
        let p := parseDigitsU rest
        (c :: p.1, p.2)
      else ([], c :: rest)
  | [] => ([], [])

/-- The exact rational value of an unsigned decimal with integer digits
`ids`, fractional digits `fds` and decimal exponent `e`. -/
def ratOfDigits (ids fds : List Char) (e : Int) : ℚ :=
  let p : Int := e - Int.ofNat fds.length
  if 0 ≤ p then mkRat (Int.ofNat (digitsToNat (ids ++ fds) * 10 ^ p.toNat)) 1
  else mkRat (Int.ofNat (digitsToNat (ids ++ fds))) (10 ^ (-p).toNat)

/-- After the mantissa digits of a decimal: require at least one mantissa
digit, then an optional exponent part (`e`/`E`, optional sign, digits),
and require the whole remaining input to be consumed. -/
def parseAfterMantissa (ids fds : List Char) (rest : List Char) : Option ℚ :=
  if ids.isEmpty && fds.isEmpty then Option.none
  else
    match rest with
    | [] => some (ratOfDigits ids fds 0)
    | e :: t =>
      if e = 'e' || e = 'E' then
        let st :=
          match t with
          | '+' :: u => (false, u)
          | '-' :: u => (true, u)
          | u => (false, u)
        let pe := parseDigitsU st.2
        if pe.1.isEmpty || !pe.2.isEmpty then Option.none
        else
          some (ratOfDigits ids fds
            (if st.1 then -(Int.ofNat (digitsToNat pe.1)) else Int.ofNat (digitsToNat pe.1)))
      else Option.none

/-- An unsigned decimal: `[digits] [. [digits]] [(e|E) [sign] digits]`,
at least one mantissa digit, underscores only between digits. -/
def parseDecimal (cs : List Char) : Option ℚ :=
  let pi := parseDigitsU cs
  match pi.2 with
  | '.' :: t =>
    let pf := parseDigitsU t
    parseAfterMantissa pi.1 pf.1 pf.2
  | r => parseAfterMantissa pi.1 [] r

/-- ASCII lower-casing of one character. -/
def lowerChar (c : Char) : Char :=
  if 'A' ≤ c && c ≤ 'Z' then Char.ofNat (c.toNat + 32) else c

/-- Strip leading and trailing Python whitespace. -/
def pyStrip (cs : List Char) : List Char :=
  ((cs.dropWhile pyIsSpace).reverse.dropWhile pyIsSpace).reverse

/-- Python `float(s)`: strip whitespace, read an optional sign, accept
`inf`/`infinity`/`nan` case-insensitively, otherwise a decimal literal;
anything else is a `ValueError` (`FloatParse.err`). -/
def pyfloat (s : String) : FloatParse :=
  let cs := pyStrip s.toList
  if cs.isEmpty then FloatParse.err
  else
    let sb :=
      match cs with
      | '+' :: t => (false, t)
      | '-' :: t => (true, t)
      | t => (false, t)
    let low := sb.2.map lowerChar
    if low = "inf".toList || low = "infinity".toList then FloatParse.infinite sb.1
    else if low = "nan".toList then FloatParse.nan
    else
      match parseDecimal sb.2 with
      | some q => FloatParse.finite (if sb.1 then -q else q)
      | Option.none => FloatParse.err

/-! ## The two regular expressions of `listparse`

`re_quoted  = ["\'](.+?)["\'][,\]]`
`re_unquoted = [\[\s]*(.+?)[,\]]`

`re.findall` returns the group of each leftmost non-overlapping match,
scanning left to right.  `(.+?)` is lazy (shortest group first), the
character class star is greedy with backtracking, and `.` matches any
character except a newline. -/

/-- A single or double quotation mark (the class `["\']`). -/
def isQuoteChar (c : Char) : Bool := c = '"' || c = '\x27'

/-- A comma or closing square bracket (the class `[,\]]`). -/
def isDelimChar (c : Char) : Bool := c = ',' || c = ']'

/-- The class `[\[\s]`: an opening square bracket or whitespace. -/
def isListOpenOrSpace (c : Char) : Bool := c = '[' || pyIsSpace c

/-- Match `(.+?)["\'][,\]]` at the start of the input: the shortest
non-empty newline-free group followed by a quote and then a delimiter.
Returns the group and the rest after the consumed delimiter. -/
def quotedGroupFrom : List Char → Option (List Char × List Char)
  | [] => Option.none
  | c :: rest =>
    if c = '\n' then Option.none
    else
      match rest with
      | q :: d :: rest2 =>
        if isQuoteChar q && isDelimChar d then some ([c], rest2)
        else
          match quotedGroupFrom rest with
          | some (g, r) => some (c :: g, r)
          | Option.none => Option.none
      | _ => Option.none

/-- All matches of `re_quoted`, scanning left to right; the fuel is the
input length (each step consumes at least one character). -/
def scanQuoted : Nat → List Char → List (List Char)
  | 0, _ => []
  | _ + 1, [] => []
  | fuel + 1, c :: rest =>
    if isQuoteChar c then
      match quotedGroupFrom rest with
      | some (g, r) => g :: scanQuoted fuel r
      | Option.none => scanQuoted fuel rest
    else scanQuoted fuel rest

/-- `re.findall(re_quoted, s)`. -/
def quotedMatches (s : String) : List String :=
  (scanQuoted s.toList.length s.toList).map String.mk

/-- Match `(.+?)[,\]]` at the start of the input: the shortest non-empty
newline-free group followed by a delimiter. -/
def unquotedGroupFrom : List Char → Option (List Char × List Char)
  | [] => Option.none
  | c :: rest =>
    if c = '\n' then Option.none
    else
      match rest with
      | d :: rest2 =>
        if isDelimChar d then some ([c], rest2)
        else
          match unquotedGroupFrom rest with
          | some (g, r) => some (c :: g, r)
          | Option.none => Option.none
      | [] => Option.none

/-- Match `[\[\s]*(.+?)[,\]]` at the start of the input: the star
consumes greedily and backtracks one character at a time if no group
match follows. -/
def unquotedMatchAt : List Char → Option (List Char × List Char)
  | [] => Option.none
  | c :: rest =>
    if isListOpenOrSpace c then
      match unquotedMatchAt rest with
      | some res => some res
      | Option.none => unquotedGroupFrom (c :: rest)
    else unquotedGroupFrom (c :: rest)

/-- All matches of `re_unquoted`, scanning left to right. -/
def scanUnquoted : Nat → List Char → List (List Char)
  | 0, _ => []
  | _ + 1, [] => []
  | fuel + 1, c :: rest =>
    match unquotedMatchAt (c :: rest) with
    | some (g, r) => g :: scanUnquoted fuel r
    | Option.none => scanUnquoted fuel rest

/-- `re.findall(re_unquoted, s)`. -/
def unquotedMatches (s : String) : List String :=
  (scanUnquoted s.toList.length s.toList).map String.mk

/-! ## The `ConfigReader` class -/

namespace ConfigReader

/-- The in-memory configuration `self.params`: a Python dict from
parameter name to value, modelled as its ordered list of entries. -/
def Config : Type := List (String × PyVal)

/-- Python dict assignment `cfg[name] = value` / `params.update(...)`:
replace the value of an existing key in place, else append the entry. -/
def dictSet : List (String × PyVal) → String → PyVal → List (String × PyVal)
  | [], k, v => [(k, v)]
  | (k0, v0) :: t, k, v =>
      if k0 = k then (k, v) :: t else (k0, v0) :: dictSet t k v

/-- Python dict lookup `params[name]`: the value of the first (and, by
the no-duplicates invariant, only) entry with the key, or `Option.none`
(a `KeyError`) when the key is absent. -/
def dictGet (d : List (String × PyVal)) (k : String) : Option PyVal :=
  (d.find? (fun p => p.1 = k)).map (fun p => p.2)

/-- `ConfigReader.numberparse`: try `float(string)`; on success compare
`int(floaty) == floaty` and return the int or the float; a `ValueError`
(from `float()` on a malformed token, or from `int()` on a NaN) is
caught and the original string returned; the `OverflowError` that
`int()` raises on an infinite value is not caught. -/
def numberparse (string : String) : Except PyErr PyVal :=
  match pyfloat string with
  | FloatParse.finite q =>
      if q.den = 1 then Except.ok (PyVal.int q.num) else Except.ok (PyVal.float q)
  | FloatParse.infinite _ => Except.error PyErr.overflowError
  | FloatParse.nan => Except.ok (PyVal.str string)
  | FloatParse.err => Except.ok (PyVal.str string)

/-- `ConfigReader.boolparse`: when the value equals the string `"True"`
or the string `"False"` return `bool(string)` — which is `True` for both,
since both strings are non-empty — else return the value unchanged.
A non-string value never equals a string, so it passes through. -/
def boolparse (v : PyVal) : PyVal :=
  match v with
  | PyVal.str s => if s = "True" || s = "False" then PyVal.bool true else PyVal.str s
  | w => w

/-- `ConfigReader.stringparse`: `words[0] = words[0][1:]`, then
`words[-1] = words[-1][:-1]` (on the already-updated list), then
`" ".join(words)`. -/
def setLast (f : String → String) : List String → List String
  | [] => []
  | [w] => [f w]
  | w :: rest => w :: setLast f rest

/-- `ConfigReader.stringparse` (see `setLast` for the in-place updates). -/
def stringparse (words : List String) : String :=
  joinSpace (setLast dropLastChar (words.modifyHead dropFirstChar))

/-- `ConfigReader.listparse`: if `re_quoted` finds elements, return them
as strings; else if `re_unquoted` finds elements, return each passed
through `numberparse` then `boolparse` (propagating an uncaught
exception of `numberparse`); else fall off the function (Python returns
`None`). -/
def listparse (liststring : String) : Except PyErr PyVal :=
  if quotedMatches liststring ≠ [] then
    Except.ok (PyVal.list ((quotedMatches liststring).map PyVal.str))
  else if unquotedMatches liststring ≠ [] then
    ((unquotedMatches liststring).mapM
        (fun e => (numberparse e).map boolparse)).map PyVal.list
  else
    Except.ok PyVal.none

/-- The body of `read_config`'s loop after the name is split off: record
`None` with a warning when no value tokens remain, dispatch on the first
value token to `listparse` / `stringparse`, and for a bare token require
it to be alone (`sys.exit()` otherwise) before `numberparse` and
`boolparse`.  The accumulator pairs the dict built so far with the
warnings printed so far; `l` is the rstripped line (used in the error). -/
def parseWords (acc : List (String × PyVal) × List String) (l : String) :
    List String → Except PyErr (List (String × PyVal) × List String)
  | [] => Except.ok acc
  | paramname :: words =>
    match words with
    | [] =>
        Except.ok (dictSet acc.1 paramname PyVal.none,
          acc.2 ++ ["WARNING: no value specified for parameter " ++ paramname ++ "."])
    | w :: rest =>
      if startsWithChar w '[' then
        (listparse (joinSpace words)).map (fun v => (dictSet acc.1 paramname v, acc.2))
      else if startsWithChar w '"' || startsWithChar w '\x27' then
        Except.ok (dictSet acc.1 paramname (PyVal.str (stringparse words)), acc.2)
      else if rest ≠ [] then
        Except.error (PyErr.systemExit l)
      else
        (numberparse w).map (fun v => (dictSet acc.1 paramname (boolparse v), acc.2))

/-- One iteration of `read_config`'s loop: rstrip the line, skip it when
empty or a `#` comment, else split it and hand the words to `parseWords`.
(The `[]` branch of `parseWords` is unreachable from here: a non-empty
rstripped line splits into at least one word.) -/
def processLine (acc : List (String × PyVal) × List String) (line : String) :
    Except PyErr (List (String × PyVal) × List String) :=
  if pyRstrip line = "" then Except.ok acc
  else if startsWithChar (pyRstrip line) '#' then Except.ok acc
  else parseWords acc (pyRstrip line) (pySplit (pyRstrip line))

/-- `ConfigReader.read_config` over the list of lines of the file:
fold the per-line step over an empty dict, also collecting the printed
warnings.  An uncaught exception (`sys.exit`, `OverflowError`) aborts
the whole load. -/
def read_config (lines : List String) :
    Except PyErr (List (String × PyVal) × List String) :=
  lines.foldlM processLine ([], [])

/-- The result of `ConfigReader.get`: a bare value, or a tuple. -/
inductive GetResult where
  | val : PyVal → GetResult
  | tup : List PyVal → GetResult

/-- The list comprehension `[self.params[name] for name in paramname]`:
look the names up in order; an absent name raises `KeyError`
(`Option.none`) and aborts the whole comprehension. -/
def lookupAll (params : List (String × PyVal)) : List String → Option (List PyVal)
  | [] => some []
  | n :: rest =>
    match dictGet params n with
    | Option.none => Option.none
    | some v =>
      match lookupAll params rest with
      | Option.none => Option.none
      | some vs => some (v :: vs)

/-- `ConfigReader.get`: look every requested name up (the list
comprehension raises `KeyError` at the first absent one), then return
the single value bare, or the values as a tuple. -/
def get (params : List (String × PyVal)) (paramname : List String) :
    Except String GetResult :=
  match lookupAll params paramname with
  | Option.none => Except.error "KeyError"
  | some values =>
    match values with
    | [v] => Except.ok (GetResult.val v)
    | vs => Except.ok (GetResult.tup vs)

/-- `ConfigReader.set`: `self.params.update({paramname: value})` — for a
one-entry dict argument this is exactly dict assignment. -/
def set (params : List (String × PyVal)) (paramname : String) (value : PyVal) :
    List (String × PyVal) :=
  dictSet params paramname value

end ConfigReader

/-- A line whose value part is more than one bare token: after
rstripping, the line is not a comment, splits into a name and at least
two value tokens, and the first value token neither opens a bracketed
list nor starts with a quote. -/
def tooManyBareTokens (line : String) : Bool :=
  match pySplit (pyRstrip line) with
  | _ :: w :: _ :: _ =>
      !(startsWithChar (pyRstrip line) '#') && !(startsWithChar w '[') &&
      !(startsWithChar w '"') && !(startsWithChar w '\x27')
  | _ => false

/-! ## Claims -/

/-- C1: the claim says `boolparse` converts the string `"False"` to
boolean false.  The code returns `bool(string)`, and `bool` of a
non-empty string is `True`, so `"False"` converts to boolean TRUE — a
slip contradicting the class's own docstring example
`[True, 1337, False, 666] --> [True, 1337, False, 666]`.  This theorem
evaluates the code at the failing input. -/
theorem C1_boolparse_False_gives_true :
    ConfigReader.boolparse (PyVal.str "False") = PyVal.bool true ∧
    PyVal.bool true ≠ PyVal.bool false := by
  refine ⟨rfl, fun h => ?_⟩
  injection h with h2
  exact Bool.noConfusion h2

/-- C2: whenever `re_quoted` finds at least one quoted substring
(a quote character, characters, a quote character immediately followed
by a comma or closing bracket), `listparse` returns exactly that ordered
list of substrings as strings, with no further conversion — every
unquoted element is dropped; in particular the line
`["mixing", 42, is, 'bad']` parses to exactly the strings `mixing` and
`bad`. -/
theorem C2_listparse_quoted_only :
    (∀ s : String, quotedMatches s ≠ [] →
        ConfigReader.listparse s =
          Except.ok (PyVal.list ((quotedMatches s).map PyVal.str))) ∧
    quotedMatches "[\"mixing\", 42, is, 'bad']" = ["mixing", "bad"] ∧
    ConfigReader.listparse "[\"mixing\", 42, is, 'bad']" =
      Except.ok (PyVal.list [PyVal.str "mixing", PyVal.str "bad"]) := by
  refine ⟨fun s h => ?_, by decide, rfl⟩
  unfold ConfigReader.listparse
  rw [if_pos h]

/-- C2 witness: the general part of C2 applied to the concrete list
string `['a', b, "c"]`, whose quoted matches are `a` and `c`. -/
theorem C2_witness :
    ConfigReader.listparse "['a', b, \"c\"]" =
      Except.ok (PyVal.list [PyVal.str "a", PyVal.str "c"]) :=
  C2_listparse_quoted_only.1 "['a', b, \"c\"]" (by decide)

/-- C3: `numberparse` tries `float(token)`; a finite parse with an
integral value yields that integer, a finite parse with a fractional
value yields the float, and a failed parse returns the original string
unchanged; `"3"` gives integer 3, `"3.5"` gives float 3.5, `"3.0"`
gives integer 3. -/
theorem C3_numberparse_narrowing :
    (∀ (s : String) (q : ℚ), pyfloat s = FloatParse.finite q →
        ConfigReader.numberparse s =
          if q.den = 1 then Except.ok (PyVal.int q.num)
          else Except.ok (PyVal.float q)) ∧
    (∀ s : String, pyfloat s = FloatParse.err →
        ConfigReader.numberparse s = Except.ok (PyVal.str s)) ∧
    ConfigReader.numberparse "3" = Except.ok (PyVal.int 3) ∧
    ConfigReader.numberparse "3.5" = Except.ok (PyVal.float (mkRat 7 2)) ∧
    ConfigReader.numberparse "3.0" = Except.ok (PyVal.int 3) := by
  refine ⟨fun s q h => ?_, fun s h => ?_, rfl, rfl, rfl⟩
  · unfold ConfigReader.numberparse
    rw [h]
  · unfold ConfigReader.numberparse
    rw [h]

/-- C3 witness: C3 applied to the token `"2.5"`, which parses to the
non-integral rational 5/2 and is kept as a float. -/
theorem C3_witness :
    ConfigReader.numberparse "2.5" = Except.ok (PyVal.float (mkRat 5 2)) := by
  have h := C3_numberparse_narrowing.1 "2.5" (mkRat 5 2) (by decide)
  exact h.trans rfl

/-- C4: the claim says an unquoted list element that is exactly the
literal `True`/`False` token is converted to the corresponding boolean.
Because of the `bool(string)` slip (see C1), the code converts BOTH
tokens to boolean true, contradicting `listparse`'s own docstring
example `[True, 1337, False, 666] --> [True, 1337, False, 666]`.  This
theorem evaluates the code on that docstring example, and checks the
claim's two boolean-free examples do hold. -/
theorem C4_listparse_unquoted_bool_slip :
    ConfigReader.listparse "[True, 1337, False, 666]" =
      Except.ok (PyVal.list
        [PyVal.bool true, PyVal.int 1337, PyVal.bool true, PyVal.int 666]) ∧
    ConfigReader.listparse "[this, is, a, valid, list]" =
      Except.ok (PyVal.list [PyVal.str "this", PyVal.str "is", PyVal.str "a",
        PyVal.str "valid", PyVal.str "list"]) ∧
    ConfigReader.listparse "[54, 74, 90, 2014]" =
      Except.ok (PyVal.list
        [PyVal.int 54, PyVal.int 74, PyVal.int 90, PyVal.int 2014]) :=
  ⟨rfl, rfl, rfl⟩

/-- C10: `numberparse` is not total: `float("inf")` and
`float("Infinity")` succeed, but the narrowing step `int(floaty)` raises
an uncaught `OverflowError` (the `except` clause catches only
`ValueError`), so the conversion raises instead of returning. -/
theorem C10_numberparse_raises_on_infinity :
    pyfloat "inf" = FloatParse.infinite false ∧
    ConfigReader.numberparse "inf" = Except.error PyErr.overflowError ∧
    pyfloat "Infinity" = FloatParse.infinite false ∧
    ConfigReader.numberparse "Infinity" = Except.error PyErr.overflowError :=
  ⟨rfl, rfl, rfl, rfl⟩

theorem pySplit_empty : pySplit "" = [] := rfl

theorem processLine_of_tooMany (line : String)
    (h : tooManyBareTokens line = true) (acc : List (String × PyVal) × List String) :
    ConfigReader.processLine acc line = Except.error (PyErr.systemExit (pyRstrip line)) := by
  unfold tooManyBareTokens at h
  cases hs : pySplit (pyRstrip line) with
  | nil => rw [hs] at h; simp at h
  | cons name ws =>
    cases ws with
    | nil => rw [hs] at h; simp at h
    | cons w rest =>
      cases rest with
      | nil => rw [hs] at h; simp at h
      | cons v rest2 =>
        rw [hs] at h
        simp only [Bool.and_eq_true, Bool.not_eq_true'] at h
        obtain ⟨⟨⟨hH, hB⟩, hQ⟩, hS⟩ := h
        have hne : pyRstrip line ≠ "" := by
          intro h0
          rw [h0, pySplit_empty] at hs
          exact List.noConfusion hs
        unfold ConfigReader.processLine
        rw [if_neg hne, if_neg (by simp [hH]), hs]
        simp [ConfigReader.parseWords, hB, hQ, hS]

theorem foldlM_error_of_mem (lines : List String) :
    ∀ (acc : List (String × PyVal) × List String) (line : String),
      line ∈ lines → tooManyBareTokens line = true →
      ∃ e, List.foldlM ConfigReader.processLine acc lines = Except.error e := by
  induction lines with
  | nil => intro acc line h _; exact absurd h (List.not_mem_nil line)
  | cons x xs ih =>
    intro acc line hmem hbad
    rw [List.foldlM_cons]
    rcases List.mem_cons.mp hmem with h | h
    · subst h
      rw [processLine_of_tooMany line hbad acc]
      exact ⟨PyErr.systemExit (pyRstrip line), rfl⟩
    · cases hx : ConfigReader.processLine acc x with
      | error e => exact ⟨e, rfl⟩
      | ok acc2 =>
        obtain ⟨e, he⟩ := ih acc2 line h hbad
        exact ⟨e, by simpa using he⟩

/-- C5: a file containing a line whose value part is more than one bare
token (neither a bracketed list nor quote-initiated) makes the whole
load fail: `read_config` aborts with an error (the `sys.exit()` on the
offending line, or an earlier abort), and no configuration is produced. -/
theorem C5_too_many_values_aborts_load :
    ∀ (lines : List String) (line : String), line ∈ lines →
      tooManyBareTokens line = true →
      ∃ e, ConfigReader.read_config lines = Except.error e :=
  fun lines line h hb => foldlM_error_of_mem lines ([], []) line h hb

/-- C5 witness: the file consisting of the single line `name 3 4`
(the spec's example) aborts the load. -/
theorem C5_witness :
    tooManyBareTokens "name 3 4" = true ∧
    ∃ e, ConfigReader.read_config ["name 3 4"] = Except.error e :=
  ⟨by decide,
   C5_too_many_values_aborts_load ["name 3 4"] "name 3 4" (by simp) (by decide)⟩

/-- C8: a non-empty, non-comment line that splits into a bare parameter
name with no value tokens does not abort the load: the step succeeds,
the parameter is recorded with the explicit no-value marker `None`, a
warning is emitted, and the fold continues with the remaining lines. -/
theorem C8_missing_value_warns_and_continues :
    ∀ (cfg : List (String × PyVal)) (warns : List String)
      (rest : List String) (line name : String),
      pySplit (pyRstrip line) = [name] →
      startsWithChar (pyRstrip line) '#' = false →
      List.foldlM ConfigReader.processLine (cfg, warns) (line :: rest) =
        List.foldlM ConfigReader.processLine
          (ConfigReader.dictSet cfg name PyVal.none,
           warns ++ ["WARNING: no value specified for parameter " ++ name ++ "."])
          rest := by
  intro cfg warns rest line name hsplit hH
  have hne : pyRstrip line ≠ "" := by
    intro h0
    rw [h0, pySplit_empty] at hsplit
    exact List.noConfusion hsplit
  rw [List.foldlM_cons]
  have hp : ConfigReader.processLine (cfg, warns) line =
      Except.ok (ConfigReader.dictSet cfg name PyVal.none,
        warns ++ ["WARNING: no value specified for parameter " ++ name ++ "."]) := by
    unfold ConfigReader.processLine
    rw [if_neg hne, if_neg (by simp [hH]), hsplit]
    rfl
  rw [hp]
  rfl

/-- C8 witness: C8 applied to the one-line file `param1`, then the
remaining (empty) fold evaluated: the load succeeds with the parameter
bound to `None` and the warning recorded. -/
theorem C8_witness :
    ConfigReader.read_config ["param1"] =
      Except.ok ([("param1", PyVal.none)],
        ["WARNING: no value specified for parameter param1."]) := by
  have h := C8_missing_value_warns_and_continues [] [] [] "param1" "param1"
    (by decide) (by decide)
  exact h.trans rfl

theorem startsWithChar_false_of_ne (w : String) (c c' : Char)
    (hq : startsWithChar w c = true) (hne : c ≠ c') :
    startsWithChar w c' = false := by
  unfold startsWithChar at hq ⊢
  revert hq
  cases w.toList with
  | nil => exact fun hq => Bool.noConfusion hq
  | cons d t =>
    intro hq
    have hd : d = c := of_decide_eq_true hq
    subst hd
    exact decide_eq_false hne

theorem setLast_append (f : String → String) (l : List String) (v : String) :
    ConfigReader.setLast f (l ++ [v]) = l ++ [f v] := by
  induction l with
  | nil => rfl
  | cons a t ih =>
    cases t with
    | nil => rfl
    | cons b t2 =>
      show a :: ConfigReader.setLast f (b :: t2 ++ [v]) = a :: (b :: t2 ++ [f v])
      exact congrArg (List.cons a) ih

/-- C6: a line whose first value token starts with a single or double
quote parses (via `stringparse`) to the tokens joined with single
spaces, with exactly one leading character stripped from the first token
and exactly one trailing character stripped from the last token (both
from the same token when there is only one), with no check that the two
stripped quote characters match; `name 'multiple words here'` parses to
the string `multiple words here`. -/
theorem C6_quoted_multiword_string :
    (∀ (acc : List (String × PyVal) × List String) (l name w : String)
        (rest : List String),
        startsWithChar w '"' = true ∨ startsWithChar w '\x27' = true →
        ConfigReader.parseWords acc l (name :: w :: rest) =
          Except.ok (ConfigReader.dictSet acc.1 name
            (PyVal.str (ConfigReader.stringparse (w :: rest))), acc.2)) ∧
    (∀ w : String, ConfigReader.stringparse [w] = dropLastChar (dropFirstChar w)) ∧
    (∀ (w v : String) (ws : List String),
        ConfigReader.stringparse (w :: ws ++ [v]) =
          joinSpace (dropFirstChar w :: ws ++ [dropLastChar v])) ∧
    ConfigReader.processLine ([], []) "name 'multiple words here'" =
      Except.ok ([("name", PyVal.str "multiple words here")], []) ∧
    ConfigReader.stringparse ["\"mismatched'"] = "mismatched" := by
  refine ⟨?_, fun w => rfl, ?_, rfl, rfl⟩
  · intro acc l name w rest hq
    have hB : startsWithChar w '[' = false := by
      rcases hq with h | h
      · exact startsWithChar_false_of_ne w '"' '[' h (by decide)
      · exact startsWithChar_false_of_ne w '\x27' '[' h (by decide)
    rcases hq with h | h <;> simp [ConfigReader.parseWords, hB, h]
  · intro w v ws
    unfold ConfigReader.stringparse
    rw [show w :: ws ++ [v] = w :: (ws ++ [v]) from rfl, List.modifyHead_cons,
      show dropFirstChar w :: (ws ++ [v]) = (dropFirstChar w :: ws) ++ [v] from rfl,
      setLast_append]

/-- C6 witness: the general dispatch part of C6 applied to the line
`k 'a b'` already split into words, with the hypothesis that the first
value token starts with a single quote. -/
theorem C6_witness :
    ConfigReader.parseWords ([], []) "k 'a b'" ["k", "'a", "b'"] =
      Except.ok ([("k", PyVal.str "a b")], []) := by
  have h := C6_quoted_multiword_string.1 ([], []) "k 'a b'" "k" "'a" ["b'"]
    (Or.inr (by decide))
  exact h.trans rfl

theorem lookupAll_none_iff (d : List (String × PyVal)) (names : List String) :
    ConfigReader.lookupAll d names = Option.none ↔
      ∃ n ∈ names, ConfigReader.dictGet d n = Option.none := by
  induction names with
  | nil => simp [ConfigReader.lookupAll]
  | cons a l ih =>
    unfold ConfigReader.lookupAll
    cases ha : ConfigReader.dictGet d a with
    | none => simp [ha]
    | some v =>
      cases hl : ConfigReader.lookupAll d l with
      | none => simp [ha, hl, ih.mp hl]
      | some vs =>
        rw [← hl]
        simp [ha, hl, ← ih]

theorem lookupAll_length (d : List (String × PyVal)) :
    ∀ (names : List String) (vs : List PyVal),
      ConfigReader.lookupAll d names = some vs → vs.length = names.length := by
  intro names
  induction names with
  | nil =>
    intro vs h
    unfold ConfigReader.lookupAll at h
    cases h
    rfl
  | cons a l ih =>
    intro vs h
    unfold ConfigReader.lookupAll at h
    cases ha : ConfigReader.dictGet d a with
    | none => rw [ha] at h; exact Option.noConfusion h
    | some v =>
      rw [ha] at h
      cases hl : ConfigReader.lookupAll d l with
      | none => rw [hl] at h; exact Option.noConfusion h
      | some ws =>
        rw [hl] at h
        cases h
        simp [ih ws hl]

/-- C7: `get` returns the bare stored value for a single requested name,
a tuple of the stored values in request order for several (in
particular a 2-tuple for two names), and raises `KeyError` exactly when
some requested name is absent from the configuration. -/
theorem C7_get_lookup :
    (∀ (d : List (String × PyVal)) (n : String) (v : PyVal),
        ConfigReader.dictGet d n = some v →
        ConfigReader.get d [n] = Except.ok (ConfigReader.GetResult.val v)) ∧
    (∀ (d : List (String × PyVal)) (n₁ n₂ : String) (v₁ v₂ : PyVal),
        ConfigReader.dictGet d n₁ = some v₁ → ConfigReader.dictGet d n₂ = some v₂ →
        ConfigReader.get d [n₁, n₂] =
          Except.ok (ConfigReader.GetResult.tup [v₁, v₂])) ∧
    (∀ (d : List (String × PyVal)) (names : List String) (vs : List PyVal),
        ConfigReader.lookupAll d names = some vs → names.length ≠ 1 →
        ConfigReader.get d names = Except.ok (ConfigReader.GetResult.tup vs)) ∧
    (∀ (d : List (String × PyVal)) (names : List String),
        (∃ e, ConfigReader.get d names = Except.error e) ↔
          ∃ n ∈ names, ConfigReader.dictGet d n = Option.none) := by
  refine ⟨?_, ?_, ?_, ?_⟩
  · intro d n v h
    unfold ConfigReader.get ConfigReader.lookupAll
    rw [h]
    rfl
  · intro d n₁ n₂ v₁ v₂ h₁ h₂
    unfold ConfigReader.get ConfigReader.lookupAll ConfigReader.lookupAll
    rw [h₁, h₂]
    rfl
  · intro d names vs h hlen
    unfold ConfigReader.get
    rw [h]
    have hvs : vs.length ≠ 1 := by
      rw [lookupAll_length d names vs h]
      exact hlen
    match vs, hvs with
    | [], _ => rfl
    | [v], hvs => exact absurd rfl hvs
    | v :: w :: t, _ => rfl
  · intro d names
    constructor
    · rintro ⟨e, he⟩
      rw [← lookupAll_none_iff]
      cases hm : ConfigReader.lookupAll d names with
      | none => rfl
      | some vs =>
        unfold ConfigReader.get at he
        rw [hm] at he
        match vs, he with
        | [], he => exact Except.noConfusion he
        | [v], he => exact Except.noConfusion he
        | v :: w :: t, he => exact Except.noConfusion he
    · intro h
      have hm := (lookupAll_none_iff d names).mpr h
      refine ⟨"KeyError", ?_⟩
      unfold ConfigReader.get
      rw [hm]

/-- C7 witness: C7 applied to the concrete configuration
`[(a, 1), (b, true)]`: a single present name returns its bare value, the
two names return the 2-tuple in request order, and an absent name gives
the key error. -/
theorem C7_witness :
    ConfigReader.get [("a", PyVal.int 1), ("b", PyVal.bool true)] ["a"] =
      Except.ok (ConfigReader.GetResult.val (PyVal.int 1)) ∧
    ConfigReader.get [("a", PyVal.int 1), ("b", PyVal.bool true)] ["b", "a"] =
      Except.ok (ConfigReader.GetResult.tup [PyVal.bool true, PyVal.int 1]) ∧
    (∃ e, ConfigReader.get [("a", PyVal.int 1), ("b", PyVal.bool true)] ["c"] =
      Except.error e) :=
  ⟨C7_get_lookup.1 [("a", PyVal.int 1), ("b", PyVal.bool true)] "a" (PyVal.int 1) rfl,
   C7_get_lookup.2.1 [("a", PyVal.int 1), ("b", PyVal.bool true)] "b" "a"
     (PyVal.bool true) (PyVal.int 1) rfl rfl,
   (C7_get_lookup.2.2.2 [("a", PyVal.int 1), ("b", PyVal.bool true)] ["c"]).mpr
     ⟨"c", by simp, rfl⟩⟩

theorem dictGet_dictSet (d : List (String × PyVal)) (k : String) (v : PyVal) :
    ConfigReader.dictGet (ConfigReader.dictSet d k v) k = some v := by
  induction d with
  | nil => simp [ConfigReader.dictSet, ConfigReader.dictGet]
  | cons p t ih =>
    obtain ⟨k0, v0⟩ := p
    by_cases hk : k0 = k
    · subst hk
      simp [ConfigReader.dictSet, ConfigReader.dictGet]
    · simp only [ConfigReader.dictSet, if_neg hk]
      unfold ConfigReader.dictGet at ih ⊢
      rw [List.find?_cons_of_neg]
      · exact ih
      · simp [hk]

/-- C9: updating any name to any value with `set` and reading it back
with `get` returns exactly the new value; the operations touch only the
in-memory list of entries (no file is involved in the model). -/
theorem C9_set_then_get_roundtrip :
    ∀ (params : List (String × PyVal)) (paramname : String) (value : PyVal),
      ConfigReader.get (ConfigReader.set params paramname value) [paramname] =
        Except.ok (ConfigReader.GetResult.val value) := by
  intro params paramname value
  unfold ConfigReader.get ConfigReader.set ConfigReader.lookupAll
  rw [dictGet_dictSet]
  rfl
